import Mathlib

/-!
Shallow embedding of the DoFler API client (`dofler/api/client.py`):
the `DoflerClient` transport router with its `login`, `account`, `image`,
`stat` and service-control operations, the credential anonymizer, the
content-addressed image store and the stat emitter.

External effects are made explicit:
* the backing store is a `List` of records threaded through each call;
* the network is a function `net : PostRequest → Except String String`
  (response body, or a connection error for an unreachable collector);
* the sensor filesystem is `fs : String → Option (List Nat)`
  (`none` when the path does not exist, `some bytes` otherwise);
* the HTML sanitizer `bleach.clean` (a third-party library) is an
  uninterpreted parameter `clean : String → String`;
* the content digest `md5hash` (module `dofler.md5`, not available here)
  is an uninterpreted parameter `hash : List Nat → List Nat → ...`, i.e.
  a deterministic function of the raw bytes, as the spec describes it.
-/

namespace DoFler

/-- An account record as persisted locally: `Account(username, password, info, proto, parser)`. -/
structure Account where
  username : String
  password : String
  info : String
  proto : String
  parser : String
deriving Repr, DecidableEq

/-- Modelled from the spec: the `Image` model (module `dofler.models`, not
available here) stores a timestamp, a file-type extension, the raw bytes and
the content hash as key, plus an occurrence counter that "starts at 1";
`Image(timestamp, ftype, data, md5)` in the client thus creates a record
with `count = 1`. -/
structure Image where
  timestamp : Nat
  filetype : String
  data : List Nat
  md5sum : String
  count : Nat
deriving Repr, DecidableEq

/-- A statistics record: `Stat(proto, username, count)`. -/
structure Stat where
  proto : String
  username : String
  count : Int
deriving Repr, DecidableEq

/-- An HTTP POST issued through the async channel: target URL, form fields,
attached files (field name and raw bytes). -/
structure PostRequest where
  url : String
  data : List (String × String)
  files : List (String × List Nat)
deriving Repr, DecidableEq

/-- The client-side state set up by `DoflerClient.__init__`. -/
structure DoflerClient where
  host : String
  port : Nat
  ssl : Bool
  anonymize : Bool
  username : String
deriving Repr, DecidableEq

/-- Loopback detection: `self.host in ['localhost', '127.0.0.1']`. -/
def isLocal (c : DoflerClient) : Bool :=
  c.host == "localhost" || c.host == "127.0.0.1"

/-- `DoflerClient.call`: builds `location = scheme + host + ":" + port + url`
and issues the POST; modelled as constructing the request value. -/
def DoflerClient.call (c : DoflerClient) (url : String)
    (data : List (String × String)) (files : List (String × List Nat)) : PostRequest :=
  PostRequest.mk
    ((if c.ssl then "https://" else "http://") ++ c.host ++ ":" ++ toString c.port ++ url)
    data files

/-- The credential anonymizer at the top of `DoflerClient.account`:
if the anonymize bit is set and `len(password) >= 3`, keep the first three
characters and asterisk the rest; otherwise leave the password alone. -/
def anonymize (anon : Bool) (password : String) : String :=
  if anon then
    if password.length ≥ 3 then
      password.take 3 ++ String.mk (List.replicate (password.length - 3) '*')
    else password
  else password

/-- The local-mode insertion guard of `account`: the store holds no record
matching the sanitized `(username, password, info)` triple, and the
(post-anonymization, pre-sanitization) password is non-empty. -/
def shouldInsertAccount (clean : String → String)
    (username password info : String) (store : List Account) : Bool :=
  decide ((store.countP fun a =>
      a.username == clean username && a.password == clean password
        && a.info == clean info) < 1)
    && (password != "")

/-- The local branch of `account`: insert the record, every field passed
through `bleach.clean`, when the guard holds; otherwise leave the store
unchanged. `password` here is the post-anonymization password. -/
def accountLocal (clean : String → String)
    (username password info proto parser : String) (store : List Account) : List Account :=
  if shouldInsertAccount clean username password info store then
    store ++ [Account.mk (clean username) (clean password) (clean info)
                (clean proto) (clean parser)]
  else store

/-- `DoflerClient.account`: anonymize the password, then dispatch on the
host string — local hosts write to the store, any other host issues a
fire-and-forget POST to `/post/account`. Returns the new store and the
request issued, if any. -/
def account (clean : String → String) (c : DoflerClient)
    (username password info proto parser : String)
    (store : List Account) : List Account × Option PostRequest :=
  let pw := anonymize c.anonymize password
  if isLocal c then
    (accountLocal clean username pw info proto parser store, none)
  else
    (store, some (c.call "/post/account"
      [("username", username), ("password", pw), ("info", info),
       ("proto", proto), ("parser", parser)] []))

/-- `filename.split('.')[-1]`: the extension inferred from the filename. -/
def ftype (filename : String) : String :=
  (filename.splitOn ".").getLastD ""

/-- The found-branch of the image store: `s.query(Image).filter_by(md5sum=md5).one()`
fetches the matching record, whose timestamp is reset and whose counter is
incremented; the first (and, under the store invariant, only) match is updated. -/
def updateFirstImage (md5 : String) (now : Nat) : List Image → List Image
  | [] => []
  | i :: rest =>
    if i.md5sum == md5 then
      Image.mk now i.filetype i.data i.md5sum (i.count + 1) :: rest
    else i :: updateFirstImage md5 now rest

/-- The local branch of `image`: hash the bytes; update the existing record
when one with that hash exists, otherwise insert a fresh record with
counter 1 and the file type inferred from the filename. -/
def imageLocal (hash : List Nat → String) (now : Nat) (filename : String)
    (data : List Nat) (store : List Image) : List Image :=
  let md5 := hash data
  if (store.countP fun i => i.md5sum == md5) > 0 then
    updateFirstImage md5 now store
  else
    store ++ [Image.mk now (ftype filename) data md5 1]

/-- How a call to `image` returned: a missing path is logged and skipped;
a local write stores the bytes; a remote upload either starts (the future
is discarded) or fails synchronously, in which case the bare `except`
logs the error and the call still returns normally. -/
inductive ImageResult where
  | missingSkip
  | storedLocal
  | uploadStarted
  | uploadFailedLogged
deriving Repr, DecidableEq

/-- `DoflerClient.image`: check the path exists on the sensor, then dispatch
on the host string; the remote branch wraps the upload in a bare
try/except, so an upload failure (`upload = .error e`) is logged and
dropped, never re-raised and never retried. Returns the outcome, the new
store, and the request issued, if any. -/
def image (hash : List Nat → String) (c : DoflerClient)
    (fs : String → Option (List Nat)) (now : Nat) (upload : Except String Unit)
    (filename : String) (store : List Image) :
    ImageResult × List Image × Option PostRequest :=
  match fs filename with
  | none => (ImageResult.missingSkip, store, none)
  | some data =>
    if isLocal c then
      (ImageResult.storedLocal, imageLocal hash now filename data store, none)
    else
      match upload with
      | Except.ok _ =>
        (ImageResult.uploadStarted, store,
          some (c.call "/post/image" [("filetype", ftype filename)] [("file", data)]))
      | Except.error _ => (ImageResult.uploadFailedLogged, store, none)

/-- `DoflerClient.stat`: local hosts append a `Stat(proto, self.username, count)`
row unconditionally; any other host issues a fire-and-forget POST to
`/post/stat`. -/
def stat (c : DoflerClient) (proto : String) (count : Int)
    (store : List Stat) : List Stat × Option PostRequest :=
  if isLocal c then
    (store ++ [Stat.mk proto c.username count], none)
  else
    (store, some (c.call "/post/stat"
      [("proto", proto), ("count", toString count), ("username", c.username)] []))

/-- Store-session events observable inside one local-mode call. -/
inductive SEvent where
  | sopen
  | scommit
  | sclose
deriving Repr, DecidableEq

/-- Session trace of the local branch of `account`: `s = self.Session()` is
always opened; `s.commit()` runs only inside the insertion branch; no
`s.close()` appears on any path of `account`. -/
def accountSessionEvents (clean : String → String)
    (username password info : String) (store : List Account) : List SEvent :=
  if shouldInsertAccount clean username password info store then
    [SEvent.sopen, SEvent.scommit]
  else
    [SEvent.sopen]

/-- Session trace of the local branch of `image`: both the update and the
insert branch fall through to `s.commit()` and `s.close()`. -/
def imageSessionEvents : List SEvent :=
  [SEvent.sopen, SEvent.scommit, SEvent.sclose]

/-- Session trace of the local branch of `stat`: open, add, commit, close. -/
def statSessionEvents : List SEvent :=
  [SEvent.sopen, SEvent.scommit, SEvent.sclose]

/-- `DoflerClient.login`: POST to `/post/login` and block on `.result()`;
the outcome is determined by the collector's response, and a connection
error propagates to the caller. -/
def login (c : DoflerClient) (net : PostRequest → Except String String)
    (username password : String) : Except String Unit :=
  match net (c.call "/post/login" [("username", username), ("password", password)] []) with
  | Except.ok _ => Except.ok Unit.unit
  | Except.error e => Except.error e

/-- `DoflerClient.__init__`: build the client state and call `login`
before returning; a failing login aborts construction. -/
def DoflerClient.create (host : String) (port : Nat) (username password : String)
    (ssl anon : Bool) (net : PostRequest → Except String String) :
    Except String DoflerClient :=
  match login (DoflerClient.mk host port ssl anon username) net username password with
  | Except.ok _ => Except.ok (DoflerClient.mk host port ssl anon username)
  | Except.error e => Except.error e

/-- Common shape of `services`/`start`/`stop`: POST to `/post/services`,
block on `.result().content`, and parse the body as JSON (`json.loads`
modelled as the uninterpreted `parseJson`). -/
def servicesCall {J : Type} (c : DoflerClient)
    (net : PostRequest → Except String String)
    (parseJson : String → Except String J) (action svc : String) : Except String J :=
  match net (c.call "/post/services" [("action", action), ("parser", svc)] []) with
  | Except.ok body => parseJson body
  | Except.error e => Except.error e

/-- `DoflerClient.services`. -/
def services {J : Type} (c : DoflerClient) (net : PostRequest → Except String String)
    (parseJson : String → Except String J) : Except String J :=
  servicesCall c net parseJson "none" "none"

/-- `DoflerClient.start`. -/
def start {J : Type} (c : DoflerClient) (net : PostRequest → Except String String)
    (parseJson : String → Except String J) (name : String) : Except String J :=
  servicesCall c net parseJson "Start" name

/-- `DoflerClient.stop`. -/
def stop {J : Type} (c : DoflerClient) (net : PostRequest → Except String String)
    (parseJson : String → Except String J) (name : String) : Except String J :=
  servicesCall c net parseJson "Stop" name

/-- A sequence of `image` calls, each with its own timestamp and path,
threading the store through. -/
def reportMany (hash : List Nat → String) (c : DoflerClient)
    (fs : String → Option (List Nat)) (upload : Except String Unit)
    (calls : List (Nat × String)) (store : List Image) : List Image :=
  calls.foldl (fun st tc => (image hash c fs tc.1 upload tc.2 st).2.1) store

/-- `n` sequential `stat` calls with identical arguments. -/
def statN (c : DoflerClient) (proto : String) (count : Int)
    (n : Nat) (store : List Stat) : List Stat :=
  match n with
  | 0 => store
  | Nat.succ m => statN c proto count m (stat c proto count store).1

/-- Modelled from the spec, for comparison with `anonymize` (§4.5 of the
design): "given a password string and an anonymize flag, if the flag is set
and the password's length is ≥ 3, return the first 3 characters followed by
`(len-3)` mask characters; otherwise return the password unchanged." -/
def anonymizeSpec (password : String) (flag : Bool) : String :=
  if flag ∧ 3 ≤ password.length then
    password.take 3 ++ String.mk (List.replicate (password.length - 3) '*')
  else password

/-- A sanitizer exhibiting one documented behaviour of `bleach.clean`:
HTML comments are stripped (its `strip_comments` option defaults to true),
so a password that is a single HTML comment sanitizes to the empty string.
Only the input relevant here is modelled; elsewhere it is the identity. -/
def bleachCommentClean : String → String :=
  fun s => if s = "<!-- hunter2 -->" then "" else s

/-- C3: the credential anonymizer is a pure function of the password and the
anonymize flag: with the flag unset, or a password shorter than 3
characters, the password is returned unchanged; otherwise the first three
characters are kept and the remaining `len - 3` are replaced by asterisks;
it agrees with the spec-level description `anonymizeSpec`, and
`anonymize true "abcdef" = "abc***"`, `anonymize true "ab" = "ab"`. -/
theorem anonymize_pure_masking :
    (∀ p : String, anonymize false p = p) ∧
    (∀ p : String, p.length < 3 → anonymize true p = p) ∧
    (∀ p : String, 3 ≤ p.length →
      anonymize true p = p.take 3 ++ String.mk (List.replicate (p.length - 3) '*')) ∧
    (∀ (flag : Bool) (p : String), anonymize flag p = anonymizeSpec p flag) ∧
    anonymize true "abcdef" = "abc***" ∧ anonymize true "ab" = "ab" := by
  refine ⟨fun p => rfl, fun p h => ?_, fun p h => ?_, fun flag p => ?_, by decide, by decide⟩
  · unfold anonymize
    rw [if_pos rfl, if_neg (by omega)]
  · unfold anonymize
    rw [if_pos rfl, if_pos (by omega)]
  · unfold anonymize anonymizeSpec
    cases flag with
    | false => rw [if_neg (by simp), if_neg (by simp)]
    | true =>
      rw [if_pos rfl]
      by_cases h : 3 ≤ p.length
      · rw [if_pos (by omega), if_pos (by simp [h])]
      · rw [if_neg (by omega), if_neg (by simp [h])]

/-- Witness for C3: at the concrete password "abcdef", whose length is at
least 3, the masking clause applies and yields "abc***". -/
theorem anonymize_pure_masking_witness :
    3 ≤ ("abcdef" : String).length ∧
      anonymize true "abcdef" =
        ("abcdef" : String).take 3
          ++ String.mk (List.replicate (("abcdef" : String).length - 3) '*') :=
  ⟨by decide, anonymize_pure_masking.2.2.1 "abcdef" (by decide)⟩

/-- C1 counterexample: on a client whose host is not loopback and whose
anonymize flag is set, `account` with caller password "abcdef" issues a POST
to `/post/account` whose password field is the masked "abc***", not the
caller's "abcdef" — the anonymization policy runs before the mode branch,
so the POSTed password is modified. -/
theorem remote_account_password_counterexample :
    (account (fun s => s)
        (DoflerClient.mk "collector.example.com" 8000 false true "sensor1")
        "bob" "abcdef" "seen on wire" "ftp" "ftpsniff" []).2 =
      some (PostRequest.mk "http://collector.example.com:8000/post/account"
        [("username", "bob"), ("password", "abc***"), ("info", "seen on wire"),
         ("proto", "ftp"), ("parser", "ftpsniff")] []) ∧
    ("abc***" : String) ≠ "abcdef" := by
  exact ⟨rfl, by decide⟩

/-- C1 amended: for every call to `account` on a client whose host is not in
the loopback set, the POST issued to `/post/account` carries the password
after the anonymization policy has been applied (masked exactly when the
anonymize flag is set and the length is ≥ 3, unchanged otherwise); the
other four fields are carried unmodified and the local store is untouched. -/
theorem remote_account_posts_anonymized (clean : String → String)
    (c : DoflerClient) (u p i pr pa : String) (store : List Account)
    (h : ¬(c.host = "localhost" ∨ c.host = "127.0.0.1")) :
    (account clean c u p i pr pa store).2 =
      some (c.call "/post/account"
        [("username", u), ("password", anonymize c.anonymize p), ("info", i),
         ("proto", pr), ("parser", pa)] []) ∧
    (account clean c u p i pr pa store).1 = store := by
  have hb : isLocal c = false := by
    unfold isLocal
    simp only [Bool.or_eq_false_iff, beq_eq_false_iff_ne]
    exact ⟨fun hh => h (Or.inl hh), fun hh => h (Or.inr hh)⟩
  unfold account
  rw [hb]
  exact ⟨rfl, rfl⟩

/-- Witness for the amended C1 at a concrete non-loopback client. -/
theorem remote_account_posts_anonymized_witness :
    ¬(("collector.example.com" : String) = "localhost" ∨
        ("collector.example.com" : String) = "127.0.0.1") ∧
    (account (fun s => s)
        (DoflerClient.mk "collector.example.com" 8000 false true "sensor1")
        "bob" "abcdef" "seen on wire" "ftp" "ftpsniff" []).2 =
      some ((DoflerClient.mk "collector.example.com" 8000 false true "sensor1").call
        "/post/account"
        [("username", "bob"),
         ("password", anonymize (DoflerClient.mk "collector.example.com" 8000 false true
            "sensor1").anonymize "abcdef"),
         ("info", "seen on wire"), ("proto", "ftp"), ("parser", "ftpsniff")] []) :=
  ⟨by decide,
    (remote_account_posts_anonymized (fun s => s)
      (DoflerClient.mk "collector.example.com" 8000 false true "sensor1")
      "bob" "abcdef" "seen on wire" "ftp" "ftpsniff" [] (by decide)).1⟩

/-- C9: in local mode, `stat` unconditionally inserts a new record on every
call — `n` sequential calls with identical arguments leave the store
extended by exactly `n` copies of `Stat(proto, username, count)`, none
merged or deduplicated. -/
theorem stat_append_only (c : DoflerClient) (proto : String) (count : Int)
    (n : Nat) (store : List Stat) (hc : isLocal c = true) :
    statN c proto count n store =
      store ++ List.replicate n (Stat.mk proto c.username count) := by
  induction n generalizing store with
  | zero => simp [statN]
  | succ m ih =>
    unfold statN stat
    rw [hc]
    simp only [ih, List.replicate_succ]
    simp [List.append_assoc]

/-- Witness for C9: three identical local-mode `stat` calls append exactly
three rows. -/
theorem stat_append_only_witness :
    isLocal (DoflerClient.mk "localhost" 8000 false true "sensor1") = true ∧
    statN (DoflerClient.mk "localhost" 8000 false true "sensor1") "http" 42 3 [] =
      [] ++ List.replicate 3 (Stat.mk "http" "sensor1" 42) :=
  ⟨rfl, stat_append_only (DoflerClient.mk "localhost" 8000 false true "sensor1")
    "http" 42 3 [] rfl⟩

/-- C6 counterexample: a local-mode `account` call that inserts (fresh store,
non-empty password) produces the session trace [open, commit] — the session
is never released before the call returns; the claim that every local-mode
operation commits and releases its session is false for `account`. -/
theorem account_session_counterexample :
    accountSessionEvents (fun s => s) "bob" "secret" "ftp login" [] =
      [SEvent.sopen, SEvent.scommit] ∧
    SEvent.sclose ∉ accountSessionEvents (fun s => s) "bob" "secret" "ftp login" [] := by
  exact ⟨rfl, by decide⟩

/-- C6 amended: the local branches of `image` and `stat` open, commit and
release their session before returning, but `account` never releases its
session on any path, and commits only on the path that inserts a record
(its trace is [open, commit] when the insertion guard holds and just
[open] otherwise). -/
theorem session_lifecycle_amended (clean : String → String)
    (u p i : String) (store : List Account) :
    imageSessionEvents = [SEvent.sopen, SEvent.scommit, SEvent.sclose] ∧
    statSessionEvents = [SEvent.sopen, SEvent.scommit, SEvent.sclose] ∧
    SEvent.sclose ∉ accountSessionEvents clean u p i store ∧
    (accountSessionEvents clean u p i store = [SEvent.sopen, SEvent.scommit] ∨
      accountSessionEvents clean u p i store = [SEvent.sopen]) := by
  refine ⟨rfl, rfl, ?_, ?_⟩
  · unfold accountSessionEvents
    split
    · decide
    · decide
  · unfold accountSessionEvents
    split
    · exact Or.inl rfl
    · exact Or.inr rfl

/-- C4 counterexample: the empty-password guard of `account` tests the
password before HTML sanitization, so a non-empty password that sanitizes
to the empty string (an HTML comment, which `bleach.clean` strips) is
inserted with an empty stored password — a record whose password as stored
is the empty string is persisted, contradicting the claim. -/
theorem account_empty_stored_password_counterexample :
    (account bleachCommentClean
        (DoflerClient.mk "localhost" 8000 false false "sensor1")
        "bob" "<!-- hunter2 -->" "ftp login" "ftp" "ftpsniff" []).1 =
      [Account.mk "bob" "" "ftp login" "ftp" "ftpsniff"] ∧
    (Account.mk "bob" "" "ftp login" "ftp" "ftpsniff").password = "" := by
  exact ⟨by decide, rfl⟩

/-- C4 amended: in local mode, calling `account` twice with identical fields
yields exactly one stored record (the second call leaves the store
unchanged), and a call whose password — after anonymization but before
sanitization — is the empty string never inserts a record; the emptiness
check precedes sanitization, so only the pre-sanitization password is
guaranteed non-empty in a stored record. -/
theorem account_dedup_amended (clean : String → String) (c : DoflerClient)
    (u p i pr pa : String) (hc : isLocal c = true) :
    ((account clean c u p i pr pa ((account clean c u p i pr pa []).1)).1 =
      (account clean c u p i pr pa []).1) ∧
    (anonymize c.anonymize p ≠ "" →
      (account clean c u p i pr pa []).1 =
        [Account.mk (clean u) (clean (anonymize c.anonymize p)) (clean i)
          (clean pr) (clean pa)]) ∧
    (anonymize c.anonymize p = "" → (account clean c u p i pr pa []).1 = []) := by
  have hacc : ∀ store : List Account, (account clean c u p i pr pa store).1 =
      accountLocal clean u (anonymize c.anonymize p) i pr pa store := by
    intro store
    unfold account
    rw [hc]
    rfl
  by_cases hp : anonymize c.anonymize p = ""
  · have g0 : shouldInsertAccount clean u (anonymize c.anonymize p) i [] = false := by
      simp [shouldInsertAccount, hp]
    have h1 : (account clean c u p i pr pa []).1 = [] := by
      rw [hacc]
      simp [accountLocal, g0]
    refine ⟨?_, fun hne => absurd hp hne, fun _ => h1⟩
    rw [h1, hacc]
    simp [accountLocal, g0]
  · have g1 : shouldInsertAccount clean u (anonymize c.anonymize p) i [] = true := by
      simp [shouldInsertAccount, hp]
    have h1 : (account clean c u p i pr pa []).1 =
        [Account.mk (clean u) (clean (anonymize c.anonymize p)) (clean i)
          (clean pr) (clean pa)] := by
      rw [hacc]
      simp [accountLocal, g1]
    have g2 : shouldInsertAccount clean u (anonymize c.anonymize p) i
        [Account.mk (clean u) (clean (anonymize c.anonymize p)) (clean i)
          (clean pr) (clean pa)] = false := by
      simp [shouldInsertAccount]
    refine ⟨?_, fun _ => h1, fun he => absurd he hp⟩
    rw [h1, hacc]
    simp [accountLocal, g2]

/-- Witness for the amended C4: on a concrete local client, the second of
two identical `account` calls leaves the store unchanged. -/
theorem account_dedup_amended_witness :
    isLocal (DoflerClient.mk "localhost" 8000 false true "sensor1") = true ∧
    ((account (fun s => s) (DoflerClient.mk "localhost" 8000 false true "sensor1")
        "bob" "secret" "ftp login" "ftp" "ftpsniff"
        ((account (fun s => s) (DoflerClient.mk "localhost" 8000 false true "sensor1")
          "bob" "secret" "ftp login" "ftp" "ftpsniff" []).1)).1 =
      (account (fun s => s) (DoflerClient.mk "localhost" 8000 false true "sensor1")
        "bob" "secret" "ftp login" "ftp" "ftpsniff" []).1) :=
  ⟨rfl, (account_dedup_amended (fun s => s)
    (DoflerClient.mk "localhost" 8000 false true "sensor1")
    "bob" "secret" "ftp login" "ftp" "ftpsniff" rfl).1⟩

/-- C10: in local mode every field of an inserted record is stored after
sanitization (`clean` standing for `bleach.clean`), the duplicate-existence
check compares the sanitized `(username, password, info)` values, and —
even with anonymization disabled — the stored password is `clean p`, which
differs from the caller-supplied password whenever `clean` modifies it. -/
theorem account_fields_sanitized (clean : String → String) (c : DoflerClient)
    (u p i pr pa : String) (store : List Account)
    (hc : isLocal c = true) (hanon : c.anonymize = false) :
    ((account clean c u p i pr pa store).1 = store ∨
      (account clean c u p i pr pa store).1 =
        store ++ [Account.mk (clean u) (clean p) (clean i) (clean pr) (clean pa)]) ∧
    (1 ≤ store.countP (fun a =>
        a.username == clean u && a.password == clean p && a.info == clean i) →
      (account clean c u p i pr pa store).1 = store) ∧
    (p ≠ "" →
      store.countP (fun a =>
        a.username == clean u && a.password == clean p && a.info == clean i) = 0 →
      (account clean c u p i pr pa store).1 =
        store ++ [Account.mk (clean u) (clean p) (clean i) (clean pr) (clean pa)] ∧
      (clean p ≠ p → ∃ a, a ∈ (account clean c u p i pr pa store).1 ∧
        a.password = clean p ∧ a.password ≠ p)) := by
  have hacc : (account clean c u p i pr pa store).1 =
      accountLocal clean u p i pr pa store := by
    unfold account
    rw [hanon, hc]
    rfl
  refine ⟨?_, fun h1 => ?_, fun hp h0 => ?_⟩
  · rw [hacc]
    unfold accountLocal
    by_cases hg : shouldInsertAccount clean u p i store = true
    · rw [if_pos hg]
      exact Or.inr rfl
    · rw [if_neg hg]
      exact Or.inl rfl
  · have hg : shouldInsertAccount clean u p i store = false := by
      have hn : ¬ (store.countP (fun a =>
          a.username == clean u && a.password == clean p && a.info == clean i) < 1) := by
        omega
      simp [shouldInsertAccount, hn]
    rw [hacc]
    simp [accountLocal, hg]
  · have hg : shouldInsertAccount clean u p i store = true := by
      simp [shouldInsertAccount, h0, hp]
    have hins : (account clean c u p i pr pa store).1 =
        store ++ [Account.mk (clean u) (clean p) (clean i) (clean pr) (clean pa)] := by
      rw [hacc]
      simp [accountLocal, hg]
    refine ⟨hins, fun hne => ?_⟩
    refine ⟨Account.mk (clean u) (clean p) (clean i) (clean pr) (clean pa), ?_, rfl, hne⟩
    rw [hins]
    simp

/-- Witness for C10: a concrete sanitizer that appends a character shows the
record is stored with every field sanitized, the password included, even
though the client's anonymize flag is off. -/
theorem account_fields_sanitized_witness :
    (account (fun s => s ++ "x")
        (DoflerClient.mk "localhost" 8000 false false "sensor1")
        "bob" "secret" "ftp login" "ftp" "ftpsniff" []).1 =
      [] ++ [Account.mk ((fun s => s ++ "x") "bob") ((fun s => s ++ "x") "secret")
        ((fun s => s ++ "x") "ftp login") ((fun s => s ++ "x") "ftp")
        ((fun s => s ++ "x") "ftpsniff")] :=
  ((account_fields_sanitized (fun s => s ++ "x")
      (DoflerClient.mk "localhost" 8000 false false "sensor1")
      "bob" "secret" "ftp login" "ftp" "ftpsniff" [] rfl rfl).2.2
    (by decide) rfl).1

/-- C5: the local/remote decision for `account`, `image` and `stat` is a
function of the host string alone, made per call: a host in
the loopback set routes the operation to the local store adapter
(`accountLocal`, `imageLocal`, a `Stat` append) with no POST issued, and
any other host issues an HTTP POST through the async channel, leaving the
local store untouched. (`image` is taken on an existing path with a
successfully enqueued upload, its preconditions for either route.) -/
theorem mode_selection (clean : String → String) (hash : List Nat → String)
    (c : DoflerClient) (fs : String → Option (List Nat)) (now : Nat)
    (u p i pr pa proto filename : String) (count : Int) (data : List Nat)
    (astore : List Account) (istore : List Image) (sstore : List Stat)
    (hfs : fs filename = some data) :
    (∀ c' : DoflerClient, c'.host = c.host → isLocal c' = isLocal c) ∧
    ((c.host = "localhost" ∨ c.host = "127.0.0.1") →
      (account clean c u p i pr pa astore).2 = none ∧
      (account clean c u p i pr pa astore).1 =
        accountLocal clean u (anonymize c.anonymize p) i pr pa astore ∧
      (stat c proto count sstore).2 = none ∧
      (stat c proto count sstore).1 = sstore ++ [Stat.mk proto c.username count] ∧
      (image hash c fs now (Except.ok Unit.unit) filename istore).2.2 = none ∧
      (image hash c fs now (Except.ok Unit.unit) filename istore).2.1 =
        imageLocal hash now filename data istore) ∧
    (¬(c.host = "localhost" ∨ c.host = "127.0.0.1") →
      (∃ req, (account clean c u p i pr pa astore).2 = some req) ∧
      (account clean c u p i pr pa astore).1 = astore ∧
      (∃ req, (stat c proto count sstore).2 = some req) ∧
      (stat c proto count sstore).1 = sstore ∧
      (∃ req, (image hash c fs now (Except.ok Unit.unit) filename istore).2.2 = some req) ∧
      (image hash c fs now (Except.ok Unit.unit) filename istore).2.1 = istore) := by
  refine ⟨fun c' h => by unfold isLocal; rw [h], fun h => ?_, fun h => ?_⟩
  · have hl : isLocal c = true := by
      unfold isLocal
      rcases h with h | h <;> rw [h] <;> decide
    refine ⟨?_, ?_, ?_, ?_, ?_, ?_⟩
    · unfold account
      rw [hl]
      rfl
    · unfold account
      rw [hl]
      rfl
    · unfold stat
      rw [hl]
      rfl
    · unfold stat
      rw [hl]
      rfl
    · unfold image
      rw [hfs, hl]
      rfl
    · unfold image
      rw [hfs, hl]
      rfl
  · have hl : isLocal c = false := by
      unfold isLocal
      simp only [Bool.or_eq_false_iff, beq_eq_false_iff_ne]
      exact ⟨fun hh => h (Or.inl hh), fun hh => h (Or.inr hh)⟩
    refine ⟨?_, ?_, ?_, ?_, ?_, ?_⟩
    · unfold account
      rw [hl]
      exact ⟨_, rfl⟩
    · unfold account
      rw [hl]
      rfl
    · unfold stat
      rw [hl]
      exact ⟨_, rfl⟩
    · unfold stat
      rw [hl]
      rfl
    · unfold image
      rw [hfs, hl]
      exact ⟨_, rfl⟩
    · unfold image
      rw [hfs, hl]
      rfl

/-- Witness for C5: a concrete loopback client routes locally (no POST on
any of the three operations). -/
theorem mode_selection_witness :
    ((("127.0.0.1" : String) = "localhost" ∨ ("127.0.0.1" : String) = "127.0.0.1") →
      True) ∧
    (account (fun s => s) (DoflerClient.mk "127.0.0.1" 8000 false true "sensor1")
      "bob" "secret" "ftp login" "ftp" "ftpsniff" []).2 = none :=
  ⟨fun _ => trivial,
    ((mode_selection (fun s => s) (fun _ => "h")
      (DoflerClient.mk "127.0.0.1" 8000 false true "sensor1")
      (fun _ => some [1, 2, 3]) 7 "bob" "secret" "ftp login" "ftp" "ftpsniff"
      "http" "cat.png" 42 [1, 2, 3] [] [] [] rfl).2.1 (Or.inr rfl)).1⟩

/-- The pure local-store effect of a sequence of image reports that all
carry the same bytes: a fold of `imageLocal`. -/
def foldImages (hash : List Nat → String) (data : List Nat)
    (calls : List (Nat × String)) (store : List Image) : List Image :=
  calls.foldl (fun st tc => imageLocal hash tc.1 tc.2 data st) store

theorem reportMany_eq_foldImages (hash : List Nat → String) (c : DoflerClient)
    (fs : String → Option (List Nat)) (upload : Except String Unit)
    (data : List Nat) (calls : List (Nat × String)) (store : List Image)
    (hc : isLocal c = true) (hfs : ∀ tc ∈ calls, fs tc.2 = some data) :
    reportMany hash c fs upload calls store = foldImages hash data calls store := by
  induction calls generalizing store with
  | nil => rfl
  | cons tc rest ih =>
    have hstep : (image hash c fs tc.1 upload tc.2 store).2.1 =
        imageLocal hash tc.1 tc.2 data store := by
      unfold image
      rw [hfs tc (List.mem_cons_self tc rest), hc]
      rfl
    show reportMany hash c fs upload rest ((image hash c fs tc.1 upload tc.2 store).2.1) =
      foldImages hash data rest (imageLocal hash tc.1 tc.2 data store)
    rw [hstep]
    exact ih _ (fun tc' h => hfs tc' (List.mem_cons_of_mem _ h))

theorem imageLocal_single (hash : List Nat → String) (now : Nat) (fn : String)
    (data : List Nat) (i : Image) (h : i.md5sum = hash data) :
    imageLocal hash now fn data [i] =
      [Image.mk now i.filetype i.data i.md5sum (i.count + 1)] := by
  simp [imageLocal, updateFirstImage, h, List.countP_cons]

theorem foldImages_single (hash : List Nat → String) (data : List Nat)
    (calls : List (Nat × String)) :
    ∀ (t0 : Nat) (ft : String) (cnt : Nat),
      ∃ t : Nat, foldImages hash data calls [Image.mk t0 ft data (hash data) cnt] =
        [Image.mk t ft data (hash data) (cnt + calls.length)] := by
  induction calls with
  | nil => exact fun t0 ft cnt => ⟨t0, rfl⟩
  | cons tc rest ih =>
    intro t0 ft cnt
    have hstep : imageLocal hash tc.1 tc.2 data [Image.mk t0 ft data (hash data) cnt] =
        [Image.mk tc.1 ft data (hash data) (cnt + 1)] :=
      imageLocal_single hash tc.1 tc.2 data (Image.mk t0 ft data (hash data) cnt) rfl
    obtain ⟨t, ht⟩ := ih tc.1 ft (cnt + 1)
    refine ⟨t, ?_⟩
    calc foldImages hash data (tc :: rest) [Image.mk t0 ft data (hash data) cnt]
        = foldImages hash data rest
            (imageLocal hash tc.1 tc.2 data [Image.mk t0 ft data (hash data) cnt]) := rfl
      _ = foldImages hash data rest [Image.mk tc.1 ft data (hash data) (cnt + 1)] := by
            rw [hstep]
      _ = [Image.mk t ft data (hash data) (cnt + 1 + rest.length)] := ht
      _ = [Image.mk t ft data (hash data) (cnt + (tc :: rest).length)] := by
            have hcnt : cnt + 1 + rest.length = cnt + (tc :: rest).length := by
              simp only [List.length_cons]
              omega
            rw [hcnt]

/-- C2: in local mode, after any number of `image` calls whose file contents
all equal `B` (starting from an empty store), at most one record is keyed
`hash B`; when at least one call was made the store is exactly one record,
keyed `hash B`, whose counter equals the number of reports — in particular
two identical reports leave one record with counter 2 and key `hash B`. -/
theorem image_content_dedup (hash : List Nat → String) (c : DoflerClient)
    (fs : String → Option (List Nat)) (upload : Except String Unit)
    (data : List Nat) (calls : List (Nat × String))
    (hc : isLocal c = true) (hfs : ∀ tc ∈ calls, fs tc.2 = some data) :
    ((reportMany hash c fs upload calls []).countP
        (fun i => i.md5sum == hash data) ≤ 1) ∧
    (∀ i ∈ reportMany hash c fs upload calls [],
      i.md5sum = hash data ∧ i.count = calls.length) ∧
    (calls ≠ [] → ∃ i, reportMany hash c fs upload calls [] = [i] ∧
      i.md5sum = hash data ∧ i.count = calls.length) := by
  have heq : reportMany hash c fs upload calls [] = foldImages hash data calls [] :=
    reportMany_eq_foldImages hash c fs upload data calls [] hc hfs
  cases calls with
  | nil =>
    rw [heq]
    exact ⟨by simp [foldImages], by simp [foldImages], fun h => absurd rfl h⟩
  | cons tc rest =>
    have hstep : foldImages hash data (tc :: rest) [] =
        foldImages hash data rest [Image.mk tc.1 (ftype tc.2) data (hash data) 1] := rfl
    obtain ⟨t, ht⟩ := foldImages_single hash data rest tc.1 (ftype tc.2) 1
    have hfinal : reportMany hash c fs upload (tc :: rest) [] =
        [Image.mk t (ftype tc.2) data (hash data) (1 + rest.length)] := by
      rw [heq, hstep, ht]
    refine ⟨?_, ?_, fun _ =>
      ⟨Image.mk t (ftype tc.2) data (hash data) (1 + rest.length), hfinal, rfl, ?_⟩⟩
    · rw [hfinal]
      exact le_trans (List.countP_le_length _) (by simp)
    · rw [hfinal]
      intro i hi
      rw [List.mem_singleton] at hi
      subst hi
      refine ⟨rfl, ?_⟩
      simp only [List.length_cons]
      omega
    · simp only [List.length_cons]
      omega

/-- Witness for C2: two local-mode reports of the bytes [1, 2, 3] leave
exactly one record with counter 2. -/
theorem image_content_dedup_witness :
    (isLocal (DoflerClient.mk "localhost" 8000 false true "sensor1") = true ∧
      (∀ tc ∈ [((5 : Nat), "a.png"), (9, "b.png")],
        (fun _ : String => some [1, 2, 3]) tc.2 = some [(1 : Nat), 2, 3]) ∧
      ([((5 : Nat), "a.png"), (9, "b.png")] ≠ ([] : List (Nat × String)))) ∧
    (∃ i, reportMany (fun _ => "h")
        (DoflerClient.mk "localhost" 8000 false true "sensor1")
        (fun _ => some [1, 2, 3]) (Except.ok Unit.unit)
        [((5 : Nat), "a.png"), (9, "b.png")] [] = [i] ∧
      i.md5sum = (fun _ : List Nat => "h") [1, 2, 3] ∧
      i.count = [((5 : Nat), "a.png"), (9, "b.png")].length) :=
  ⟨⟨rfl, by decide, by decide⟩,
    (image_content_dedup (fun _ => "h")
      (DoflerClient.mk "localhost" 8000 false true "sensor1")
      (fun _ => some [1, 2, 3]) (Except.ok Unit.unit) [1, 2, 3]
      [((5 : Nat), "a.png"), (9, "b.png")] rfl (by decide)).2.2 (by decide)⟩

/-- C7: `login` always issues the remote-style call and its outcome is that
of the awaited response, whatever the host (the definition never consults
the loopback set); an unreachable collector (`net` returning an error on the
login request) makes `DoflerClient.create` itself return that error; and
`services`/`start`/`stop` return a value only when a response body was
received and parsed as JSON. -/
theorem blocking_calls {J : Type} (c : DoflerClient)
    (net : PostRequest → Except String String)
    (parseJson : String → Except String J)
    (host : String) (port : Nat) (u p nm e : String) (ssl anon : Bool) (j : J) :
    ((login c net u p = Except.ok Unit.unit) ↔
      ∃ b, net (c.call "/post/login" [("username", u), ("password", p)] []) =
        Except.ok b) ∧
    (net (DoflerClient.call (DoflerClient.mk host port ssl anon u)
        "/post/login" [("username", u), ("password", p)] []) = Except.error e →
      DoflerClient.create host port u p ssl anon net = Except.error e) ∧
    (services c net parseJson = Except.ok j →
      ∃ b, net (c.call "/post/services"
          [("action", "none"), ("parser", "none")] []) = Except.ok b ∧
        parseJson b = Except.ok j) ∧
    (start c net parseJson nm = Except.ok j →
      ∃ b, net (c.call "/post/services"
          [("action", "Start"), ("parser", nm)] []) = Except.ok b ∧
        parseJson b = Except.ok j) ∧
    (stop c net parseJson nm = Except.ok j →
      ∃ b, net (c.call "/post/services"
          [("action", "Stop"), ("parser", nm)] []) = Except.ok b ∧
        parseJson b = Except.ok j) := by
  refine ⟨⟨fun h => ?_, fun hb => ?_⟩, fun h => ?_, fun h => ?_, fun h => ?_, fun h => ?_⟩
  · unfold login at h
    cases hn : net (c.call "/post/login" [("username", u), ("password", p)] []) with
    | ok b => exact ⟨b, rfl⟩
    | error er =>
      rw [hn] at h
      exact absurd h (by simp)
  · obtain ⟨b, hb⟩ := hb
    unfold login
    rw [hb]
  · unfold DoflerClient.create login
    rw [h]
  · unfold services servicesCall at h
    cases hn : net (c.call "/post/services" [("action", "none"), ("parser", "none")] []) with
    | ok b =>
      rw [hn] at h
      exact ⟨b, rfl, h⟩
    | error er =>
      rw [hn] at h
      exact absurd h (by simp)
  · unfold start servicesCall at h
    cases hn : net (c.call "/post/services" [("action", "Start"), ("parser", nm)] []) with
    | ok b =>
      rw [hn] at h
      exact ⟨b, rfl, h⟩
    | error er =>
      rw [hn] at h
      exact absurd h (by simp)
  · unfold stop servicesCall at h
    cases hn : net (c.call "/post/services" [("action", "Stop"), ("parser", nm)] []) with
    | ok b =>
      rw [hn] at h
      exact ⟨b, rfl, h⟩
    | error er =>
      rw [hn] at h
      exact absurd h (by simp)

/-- Witness for C7: with a network on which every request errors, client
construction fails with that error. -/
theorem blocking_calls_witness :
    (fun _ : PostRequest => (Except.error "unreachable" : Except String String))
        (DoflerClient.call (DoflerClient.mk "localhost" 8000 false true "sensor1")
          "/post/login" [("username", "sensor1"), ("password", "pw")] []) =
      Except.error "unreachable" ∧
    DoflerClient.create "localhost" 8000 "sensor1" "pw" false true
        (fun _ => Except.error "unreachable") = Except.error "unreachable" :=
  ⟨rfl,
    (@blocking_calls String
      (DoflerClient.mk "localhost" 8000 false true "sensor1")
      (fun _ => Except.error "unreachable") (fun s => Except.ok s)
      "localhost" 8000 "sensor1" "pw" "svc" "unreachable" false true "x").2.1 rfl⟩

/-- C8: a missing path makes `image` return normally with nothing stored and
nothing sent, for a failing upload as well as a healthy one; and in remote
mode a synchronous upload failure is swallowed by the bare except — the
call returns the logged-failure outcome, stores nothing, issues no request
and makes no further attempt. -/
theorem image_error_handling (hash : List Nat → String) (c : DoflerClient)
    (fs : String → Option (List Nat)) (now : Nat) (filename e : String)
    (store : List Image) (data : List Nat) :
    (fs filename = none →
      image hash c fs now (Except.error e) filename store =
        (ImageResult.missingSkip, store, none) ∧
      image hash c fs now (Except.ok Unit.unit) filename store =
        (ImageResult.missingSkip, store, none)) ∧
    (fs filename = some data → isLocal c = false →
      image hash c fs now (Except.error e) filename store =
        (ImageResult.uploadFailedLogged, store, none)) := by
  refine ⟨fun h => ⟨?_, ?_⟩, fun h hl => ?_⟩
  · unfold image
    rw [h]
  · unfold image
    rw [h]
  · unfold image
    rw [h, hl]
    rfl

/-- Witness for C8: a remote client whose upload raises sees the failure
logged and dropped — the call returns with the store unchanged and no
request issued. -/
theorem image_error_handling_witness :
    ((fun _ : String => some [(1 : Nat), 2, 3]) "cat.png" = some [(1 : Nat), 2, 3] ∧
      isLocal (DoflerClient.mk "collector.example.com" 8000 false true "sensor1") = false) ∧
    image (fun _ => "h") (DoflerClient.mk "collector.example.com" 8000 false true "sensor1")
        (fun _ => some [1, 2, 3]) 7 (Except.error "connection refused") "cat.png" [] =
      (ImageResult.uploadFailedLogged, [], none) :=
  ⟨⟨rfl, rfl⟩,
    (image_error_handling (fun _ => "h")
      (DoflerClient.mk "collector.example.com" 8000 false true "sensor1")
      (fun _ => some [1, 2, 3]) 7 "cat.png" "connection refused" [] [1, 2, 3]).2 rfl rfl⟩

end DoFler
